import Mathlib

/-!
Verification of `src/fdstream.cpp` (the `fdistream`/`fdbuf` buffered stream
with a high-performance forward-skip) via a shallow embedding.

Modelling conventions:
* Machine integers: `size_t` values are `Nat` reduced mod `2 ^ 64` where the
  code converts a signed quantity to `size_t` (`toSizeT`); the `size_t → off_t`
  conversion at the `lseek` call site is `toOffT` (two's complement).
* The byte source behind a descriptor is abstracted by its total length
  `flen` and a content map `Nat → Nat` (byte value at each absolute offset);
  `fpos` is the descriptor's current offset (for a regular file) or the number
  of bytes consumed so far (pipe / other).
* `splice(2)` moves `min (count, bytes available, chunk)` bytes, where `chunk`
  models the kernel-pipe transfer granularity (pipe buffer capacity); a return
  of `0` is end-of-input.  System-call failures (`-1` with `errno` other than
  `EINTR`) come from the environment and are outside the deterministic model.
* Loops that the source runs without a bound are given explicit fuel; `none`
  means the loop has not returned within the given fuel (for every fuel =
  non-termination).
* The `fdbuf` window state `eback ≤ gptr ≤ egptr` is kept as buffer offsets
  `0 ≤ gpos ≤ epos`; `gstart` is the absolute source offset of buffer index 0,
  maintained by `underflow`'s refill, so the byte at buffer index `i` is
  `content (gstart + i)`.
-/

deriving instance DecidableEq for Except

namespace Fdstream

/-- `FdType` from fdstream.cpp:16. -/
inductive FdType where
  | reg
  | fifo
  | other
deriving DecidableEq

/-- `S_IFREG` file-type bit (octal 0100000). -/
def S_IFREG : Nat := 0o100000

/-- `S_IFIFO` file-type bit (octal 0010000). -/
def S_IFIFO : Nat := 0o010000

/-- `S_IFSOCK` file-type code (octal 0140000): a socket; note it contains the
`S_IFREG` bit. -/
def S_IFSOCK : Nat := 0o140000

/-- `default_bufsize` from fdstream.cpp:14. -/
def default_bufsize : Nat := 2 ^ 13

/-- Descriptor-kind classification as written in both `Fd` constructors
(fdstream.cpp:27-33 and 52-58): bitwise AND of `st_mode` against the type
bits, not an equality comparison of the file-type field. -/
def classify (st_mode : Nat) : FdType :=
  if st_mode &&& S_IFREG ≠ 0 then FdType.reg
  else if st_mode &&& S_IFIFO ≠ 0 then FdType.fifo
  else FdType.other

/-- Conversion of a signed value to `size_t` (C++ implicit conversion at the
call `skip(this->fd, off - buffered)`, fdstream.cpp:275). -/
def toSizeT (i : Int) : Nat := (i % (2 ^ 64 : Int)).toNat

/-- Conversion of a `size_t` back to the signed `off_t` at the call
`lseek(fd, n, SEEK_CUR)` (fdstream.cpp:143): two's complement. -/
def toOffT (n : Nat) : Int :=
  if n < 2 ^ 63 then (n : Int) else (n : Int) - 2 ^ 64

/-- Errors thrown by the skip machinery (all are `std::runtime_error` in the
source; we distinguish them by their site). -/
inductive SkipErr where
  | seekError
  | prematureEnd
deriving DecidableEq

/-- State of one `fdbuf` stream: descriptor kind, source offset/consumed count
`fpos`, total source length `flen`, and the buffer window (`gstart` absolute
offset of buffer index 0, get pointer `gpos`, end pointer `epos`, buffer
`capacity`). -/
structure StreamSt where
  kind : FdType
  fpos : Nat
  flen : Nat
  gstart : Nat
  gpos : Nat
  epos : Nat
  capacity : Nat
deriving DecidableEq

/-- Number of already-buffered-but-unread bytes, `egptr() - gptr()`. -/
def buffered (st : StreamSt) : Nat := st.epos - st.gpos

/-- Bytes of the source not yet pulled in by the descriptor. -/
def remaining (st : StreamSt) : Nat := st.flen - st.fpos

/-- Absolute logical position of the stream: bytes of the source the client
has consumed (descriptor offset minus buffered unread bytes). -/
def streamPos (st : StreamSt) : Int := (st.fpos : Int) - (buffered st : Int)

/-- `lseek(fd, offset, SEEK_CUR)` wrapper (fdstream.cpp:154-164): on success
the descriptor offset becomes `fpos + offset`; the kernel rejects a negative
resulting offset (`EINVAL`), which the wrapper turns into a thrown error. -/
def lseek (st : StreamSt) (offset : Int) : Except SkipErr StreamSt :=
  if 0 ≤ (st.fpos : Int) + offset then
    Except.ok { st with fpos := ((st.fpos : Int) + offset).toNat }
  else Except.error SkipErr.seekError

/-- `splice_pipe_to_null(fd, n)` (fdstream.cpp:168-182): repeatedly splice the
pipe straight into /dev/null while `n > 0`, subtracting whatever each call
moved.  `r` is the number of bytes still available from the source; each
splice moves `min n (min r chunk)` bytes (`0` once the source is exhausted,
which this loop does not check).  Fuel bounds the number of iterations we
unfold; `none` means the loop has not exited within that fuel. -/
def splice_pipe_to_null (chunk : Nat) : Nat → Nat → Nat → Option Nat
  | 0, r, n => if n = 0 then some r else none
  | fuel + 1, r, n =>
    if n = 0 then some r
    else
      let read := min n (min r chunk)
      splice_pipe_to_null chunk fuel (r - read) (n - read)

/-- `splice_to_null(fd, n)` (fdstream.cpp:189-217): two-hop transfer through a
kernel pipe.  The loop body either (a) moves `read > 0` bytes into the pipe,
drains them to /dev/null, does `n -= read` and then `break`s out of the loop,
(b) sees `read == 0` and throws the premature-end error, or (c) propagates a
splice failure (environment, not modelled).  Because of the `break`, the loop
body runs at most once; on the success path the function returns with the
source having `r - read` bytes left, even when `read < n`. -/
def splice_to_null (chunk : Nat) (r : Nat) (n : Nat) : Except SkipErr Nat :=
  if n = 0 then Except.ok r
  else
    let read := min n (min r chunk)
    if 0 < read then Except.ok (r - read)
    else Except.error SkipErr.prematureEnd

/-- `skip(fd, n)` (fdstream.cpp:140-152): strategy dispatch on the descriptor
kind.  The result is `none` when the chosen loop does not terminate within
`fuel`, otherwise the thrown error or the updated state. -/
def skip (chunk fuel : Nat) (st : StreamSt) (n : Nat) :
    Option (Except SkipErr StreamSt) :=
  match st.kind with
  | FdType.reg => some (lseek st (toOffT n))
  | FdType.fifo =>
    match splice_pipe_to_null chunk fuel (remaining st) n with
    | none => none
    | some r => some (Except.ok { st with fpos := st.flen - r })
  | FdType.other =>
    match splice_to_null chunk (remaining st) n with
    | Except.error e => some (Except.error e)
    | Except.ok r => some (Except.ok { st with fpos := st.flen - r })

/-- `std::ios::openmode`, restricted to the in/out bits that `seekoff`
inspects. -/
structure OpenMode where
  readable : Bool
  writable : Bool
deriving DecidableEq

/-- `std::ios::in`. -/
def modeIn : OpenMode := ⟨true, false⟩

/-- `std::ios::out`. -/
def modeOut : OpenMode := ⟨false, true⟩

/-- `std::ios::in | std::ios::out` (the default argument of `seekoff`). -/
def modeInOut : OpenMode := ⟨true, true⟩

/-- `std::ios::seekdir`. -/
inductive SeekDir where
  | beg
  | cur
  | sEnd
deriving DecidableEq

/-- Result of `fdbuf::seekoff`: delegation to the base-class default, a
returned position together with the post-call state, a thrown skip error, or
non-termination of the fifo splice loop within the given fuel. -/
inductive SeekRes where
  | fallback
  | ok (ret : Int) (st : StreamSt)
  | error (e : SkipErr)
  | hang
deriving DecidableEq

/-- `this->setg(this->eback(), end, end)` with `end = egptr()`
(fdstream.cpp:274): the whole buffered window is marked consumed. -/
def consumeAll (st : StreamSt) : StreamSt := { st with gpos := st.epos }

/-- The argument the `skip` dispatcher receives from `fdbuf::seekoff`
(fdstream.cpp:275): `off - buffered`, implicitly converted to `size_t`. -/
def seekoffArg (st : StreamSt) (off : Int) : Nat :=
  toSizeT (off - (buffered st : Int))

/-- `fdbuf::seekoff(off, way, which)` (fdstream.cpp:264-278).  The guard
delegates to `std::streambuf::seekoff` when `which == std::ios::out` or
`way != std::ios::cur`; otherwise the window is consumed, the remainder is
dispatched to `skip`, and `gptr() - eback()` (which now equals the old
`egptr()` offset `epos`) is returned. -/
def seekoff (chunk fuel : Nat) (st : StreamSt) (off : Int) (way : SeekDir)
    (which : OpenMode) : SeekRes :=
  if which = modeOut ∨ way ≠ SeekDir.cur then SeekRes.fallback
  else
    match skip chunk fuel (consumeAll st) (seekoffArg st off) with
    | none => SeekRes.hang
    | some (Except.error e) => SeekRes.error e
    | some (Except.ok st') => SeekRes.ok (st.epos : Int) st'

/-- Buffer refill inside `fdbuf::underflow` (fdstream.cpp:280-289): when the
window is empty, one `read` of up to `capacity` bytes lands at the start of
the buffer and the window becomes `[0, n)`; a regular-file/pipe read returns
`min capacity (flen - fpos)` bytes in the deterministic model. -/
def fill (st : StreamSt) : StreamSt :=
  if st.gpos = st.epos then
    let n := min st.capacity (st.flen - st.fpos)
    { st with gstart := st.fpos, gpos := 0, epos := n, fpos := st.fpos + n }
  else st

/-- `fdbuf::underflow` (fdstream.cpp:280-289): refill if empty; the second
component is `false` exactly when end-of-input was hit (the source returned
`0` bytes). -/
def underflow (st : StreamSt) : StreamSt × Bool :=
  let st' := fill st
  (st', !(st'.gpos == st'.epos))

/-- `fdbuf::xsgetn(s, n)` (fdstream.cpp:243-263): drain buffered bytes,
refilling via `underflow` when the window empties, until `n` bytes are
delivered or end-of-input.  Returns the final state and the delivered bytes
(the byte at buffer index `i` is `content (gstart + i)`).  The emptiness test
`gptr() == egptr()` is rendered as `epos ≤ gpos` (the pointers always satisfy
`gptr ≤ egptr`), which gives the loop's termination measure. -/
def xsgetn (content : Nat → Nat) : StreamSt → Nat → StreamSt × List Nat
  | st, 0 => (st, [])
  | st, n + 1 =>
    if _h : (fill st).epos ≤ (fill st).gpos then (fill st, [])
    else
      let amt := min (n + 1) ((fill st).epos - (fill st).gpos)
      let rest := xsgetn content { fill st with gpos := (fill st).gpos + amt } (n + 1 - amt)
      (rest.1,
        (List.range' ((fill st).gstart + (fill st).gpos) amt).map content ++ rest.2)
termination_by _ n => n
decreasing_by simp_wf; omega

/-- Heap/ownership state of one `fdbuf`'s buffer (for `setbuf` and the
destructor): identity of the currently installed array `curBuf`, its
`capacity`, the ownership flag, the array the window pointers
`eback/gptr/egptr` point into (`winBuf`, with offsets `gpos`/`epos`), and the
ids of arrays freed so far. -/
structure FdbufMem where
  curBuf : Nat
  capacity : Nat
  owned : Bool
  winBuf : Nat
  gpos : Nat
  epos : Nat
  freed : List Nat
deriving DecidableEq

/-- `fdbuf::setbuf(s, n)` (fdstream.cpp:291-301): free the internal buffer if
owned, drop ownership, install the caller's array with the new capacity.  The
window pointers (`setg`) are not touched. -/
def setbuf (m : FdbufMem) (s : Nat) (n : Nat) : FdbufMem :=
  { m with
    freed := if m.owned then m.freed ++ [m.curBuf] else m.freed
    owned := false
    curBuf := s
    capacity := n }

/-- `fdbuf::~fdbuf` (fdstream.cpp:234-238): free the buffer iff owned.
Returns the full free-trace of the object's lifetime. -/
def fdbufDtor (m : FdbufMem) : List Nat :=
  m.freed ++ (if m.owned then [m.curBuf] else [])

/-- Which array the next read touches: a non-empty window is drained from the
array the window pointers point into; an empty window is refilled into the
currently installed buffer. -/
def nextReadBuf (m : FdbufMem) : Nat :=
  if m.gpos = m.epos then m.curBuf else m.winBuf

/-- Refill effect on the memory view: `underflow` reads into the installed
buffer and re-`setg`s the window over it. -/
def fillMem (m : FdbufMem) (nread : Nat) : FdbufMem :=
  if m.gpos = m.epos then
    { m with winBuf := m.curBuf, gpos := 0, epos := nread }
  else m

/-- One result of the `::open` call inside the retry loop of
`Fd::Fd(const std::string&, int)` (fdstream.cpp:42-48). -/
inductive OpenAttempt where
  | eintr
  | fail
  | ok (fd : Nat)
deriving DecidableEq

/-- The open retry loop (fdstream.cpp:42-48): retry while `errno == EINTR`,
throw on any other failure, stop on success.  `none`: every attempt in the
environment trace was an interruption, so the loop has not returned. -/
def openRetry : List OpenAttempt → Option (Except Unit Nat)
  | [] => none
  | OpenAttempt.eintr :: rest => openRetry rest
  | OpenAttempt.fail :: _ => some (Except.error ())
  | OpenAttempt.ok fd :: _ => some (Except.ok fd)

/-- The `Fd` handle: descriptor id, classified kind, ownership flag
(fdstream.cpp:88-92). -/
structure Fd where
  fd : Nat
  type : FdType
  owned : Bool
deriving DecidableEq

/-- `Fd::Fd(const std::string&, int)` (fdstream.cpp:41-65): open with the
retry loop, then `fstat`-classify; on classification failure close the
descriptor before throwing.  Result: the constructor's outcome together with
the descriptors closed during construction; `none` when the open loop never
returns. -/
def fdFromPath (attempts : List OpenAttempt) (fstatMode : Option Nat) :
    Option (Except Unit Fd × List Nat) :=
  match openRetry attempts with
  | none => none
  | some (Except.error _) => some (Except.error (), [])
  | some (Except.ok fd) =>
    match fstatMode with
    | some mode => some (Except.ok ⟨fd, classify mode, true⟩, [])
    | none => some (Except.error (), [fd])

/-- `Fd::Fd(int)` (fdstream.cpp:24-39): borrow the descriptor and classify;
on classification failure throw without closing. -/
def fdFromInt (fd : Nat) (fstatMode : Option Nat) : Except Unit Fd × List Nat :=
  match fstatMode with
  | some mode => (Except.ok ⟨fd, classify mode, false⟩, [])
  | none => (Except.error (), [])

/-- `Fd::~Fd` (fdstream.cpp:73-77): close iff owned.  In C++ the destructor
runs only when construction succeeded. -/
def fdDtor (h : Fd) : List Nat := if h.owned then [h.fd] else []

/-- All descriptors closed over the handle's lifetime: those closed during
construction plus, when construction succeeded, those closed at destruction. -/
def lifecycleCloses (ctor : Except Unit Fd × List Nat) : List Nat :=
  ctor.2 ++ (match ctor.1 with
    | Except.ok h => fdDtor h
    | Except.error _ => [])

/-! ## Helper lemmas -/

/-- The `size_t` value of a signed quantity, seen back in `Int`, is the value
mod `2 ^ 64`. -/
lemma toSizeT_cast (i : Int) : (toSizeT i : Int) = i % 2 ^ 64 := by
  unfold toSizeT
  omega

/-- Round-tripping a signed value in `[-2^63, 2^63)` through `size_t` and back
through `off_t` is the identity. -/
lemma toOffT_toSizeT (i : Int) (h0 : -(2 ^ 63) ≤ i) (h1 : i < 2 ^ 63) :
    toOffT (toSizeT i) = i := by
  unfold toOffT toSizeT
  split <;> omega

/-- Two stream states agreeing on every field are equal. -/
lemma StreamSt.ext_fields (a b : StreamSt) (h1 : a.kind = b.kind)
    (h2 : a.fpos = b.fpos) (h3 : a.flen = b.flen) (h4 : a.gstart = b.gstart)
    (h5 : a.gpos = b.gpos) (h6 : a.epos = b.epos)
    (h7 : a.capacity = b.capacity) : a = b := by
  cases a
  cases b
  simp_all

/-- A zero-byte fifo skip exits the loop at once, at any fuel. -/
lemma splice_pipe_to_null_zero (chunk : Nat) :
    ∀ fuel r, splice_pipe_to_null chunk fuel r 0 = some r := by
  intro fuel r
  cases fuel <;> simp [splice_pipe_to_null]

/-- Once the fifo's source is exhausted while bytes remain requested, every
`splice` returns `0` and the loop never exits: for every fuel the result is
`none`. -/
lemma splice_pipe_to_null_stuck (chunk : Nat) :
    ∀ fuel n, splice_pipe_to_null chunk fuel 0 (n + 1) = none := by
  intro fuel
  induction fuel with
  | zero => intro n; simp [splice_pipe_to_null]
  | succ f ih =>
    intro n
    simpa [splice_pipe_to_null] using ih n

/-- When the fifo splice loop does return, it has discarded exactly the
requested bytes: the request was satisfiable (`n ≤ r`) and exactly `n` bytes
were consumed. -/
lemma splice_pipe_to_null_some (chunk : Nat) :
    ∀ fuel r n r', splice_pipe_to_null chunk fuel r n = some r' →
      r' = r - n ∧ n ≤ r := by
  intro fuel
  induction fuel with
  | zero =>
    intro r n r' h
    by_cases hn : n = 0
    · simp [splice_pipe_to_null, hn] at h
      omega
    · simp [splice_pipe_to_null, hn] at h
  | succ f ih =>
    intro r n r' h
    by_cases hn : n = 0
    · simp [splice_pipe_to_null, hn] at h
      omega
    · rw [splice_pipe_to_null, if_neg hn] at h
      have := ih _ _ _ h
      omega

/-- `skip` on a Regular descriptor is the `lseek` strategy. -/
lemma skip_reg_eq (chunk fuel : Nat) (s : StreamSt) (n : Nat)
    (hk : s.kind = FdType.reg) :
    skip chunk fuel s n = some (lseek s (toOffT n)) := by
  unfold skip
  rw [hk]

/-- `skip` on a Fifo descriptor is the direct-splice strategy. -/
lemma skip_fifo_eq (chunk fuel : Nat) (s : StreamSt) (n : Nat)
    (hk : s.kind = FdType.fifo) :
    skip chunk fuel s n =
      match splice_pipe_to_null chunk fuel (remaining s) n with
      | none => none
      | some r => some (Except.ok { s with fpos := s.flen - r }) := by
  unfold skip
  rw [hk]

/-- `skip` on an Other descriptor is the two-hop strategy. -/
lemma skip_other_eq (chunk fuel : Nat) (s : StreamSt) (n : Nat)
    (hk : s.kind = FdType.other) :
    skip chunk fuel s n =
      match splice_to_null chunk (remaining s) n with
      | Except.error e => some (Except.error e)
      | Except.ok r => some (Except.ok { s with fpos := s.flen - r }) := by
  unfold skip
  rw [hk]

/-- Frame lemma for `skip`: on success only `fpos` can change. -/
lemma skip_ok_frame (chunk fuel : Nat) (s s' : StreamSt) (n : Nat)
    (h : skip chunk fuel s n = some (Except.ok s')) :
    s'.kind = s.kind ∧ s'.flen = s.flen ∧ s'.gstart = s.gstart ∧
    s'.gpos = s.gpos ∧ s'.epos = s.epos ∧ s'.capacity = s.capacity := by
  cases hk : s.kind
  · rw [skip_reg_eq chunk fuel s n hk] at h
    simp only [Option.some.injEq] at h
    unfold lseek at h
    split at h
    · simp only [Except.ok.injEq] at h
      subst h
      exact ⟨hk, rfl, rfl, rfl, rfl, rfl⟩
    · simp at h
  · rw [skip_fifo_eq chunk fuel s n hk] at h
    cases hsp : splice_pipe_to_null chunk fuel (remaining s) n with
    | none =>
      simp only [hsp] at h
      exact Option.noConfusion h
    | some rr =>
      simp only [hsp, Option.some.injEq, Except.ok.injEq] at h
      subst h
      exact ⟨hk, rfl, rfl, rfl, rfl, rfl⟩
  · rw [skip_other_eq chunk fuel s n hk] at h
    cases hsp : splice_to_null chunk (remaining s) n with
    | error e =>
      simp only [hsp, Option.some.injEq] at h
      exact Except.noConfusion h
    | ok rr =>
      simp only [hsp, Option.some.injEq, Except.ok.injEq] at h
      subst h
      exact ⟨hk, rfl, rfl, rfl, rfl, rfl⟩

/-- Elimination for a successful `seekoff` on the optimization path: it is
exactly a successful `skip` of `seekoffArg` bytes from the fully-consumed
window, and the returned value is the old `egptr` offset. -/
lemma seekoff_ok_elim (chunk fuel : Nat) (st st' : StreamSt) (off r : Int)
    (h : seekoff chunk fuel st off SeekDir.cur modeIn = SeekRes.ok r st') :
    skip chunk fuel (consumeAll st) (seekoffArg st off) = some (Except.ok st') ∧
    r = (st.epos : Int) := by
  have hguard : ¬(modeIn = modeOut ∨ SeekDir.cur ≠ SeekDir.cur) := by decide
  rw [seekoff, if_neg hguard] at h
  cases hsk : skip chunk fuel (consumeAll st) (seekoffArg st off) <;>
    rw [hsk] at h
  · simp at h
  · next res =>
    cases res <;> simp_all

/-- Single-step characterization of a successful forward optimization seek on
a Regular or Fifo descriptor (bounded sizes): the whole window is consumed and
the descriptor advances by `off - buffered`, so the logical position advances
by exactly `off`. -/
lemma seek_ok_step (chunk fuel : Nat) (st st' : StreamSt) (off r : Int)
    (hk : st.kind = FdType.reg ∨ st.kind = FdType.fifo)
    (h0 : 0 ≤ off) (h1 : off ≤ 2 ^ 62)
    (he : st.epos ≤ 2 ^ 61) (hf : st.flen ≤ 2 ^ 61)
    (hfp : st.kind = FdType.fifo → st.fpos ≤ st.flen)
    (h : seekoff chunk fuel st off SeekDir.cur modeIn = SeekRes.ok r st') :
    st'.kind = st.kind ∧ st'.flen = st.flen ∧ st'.epos = st.epos ∧
    st'.gpos = st.epos ∧
    (st'.fpos : Int) = (st.fpos : Int) + off - (buffered st : Int) ∧
    (st.kind = FdType.fifo → st'.fpos ≤ st'.flen) := by
  obtain ⟨hsk, hr⟩ := seekoff_ok_elim chunk fuel st st' off r h
  have hB : (buffered st : Nat) ≤ st.epos := Nat.sub_le _ _
  have hrange0 : -(2 ^ 63) ≤ off - (buffered st : Int) := by omega
  have hrange1 : off - (buffered st : Int) < 2 ^ 63 := by omega
  rcases hk with hk | hk
  · rw [skip_reg_eq chunk fuel (consumeAll st) (seekoffArg st off) hk] at hsk
    simp only [Option.some.injEq] at hsk
    unfold lseek at hsk
    have harg : toOffT (seekoffArg st off) = off - (buffered st : Int) := by
      unfold seekoffArg
      exact toOffT_toSizeT _ hrange0 hrange1
    rw [harg] at hsk
    split at hsk
    · next hpos =>
      simp only [Except.ok.injEq] at hsk
      subst hsk
      refine ⟨rfl, rfl, rfl, rfl, ?_, ?_⟩
      · simp only [consumeAll] at hpos ⊢
        omega
      · intro hko
        rw [hk] at hko
        cases hko
    · simp at hsk
  · rw [skip_fifo_eq chunk fuel (consumeAll st) (seekoffArg st off) hk] at hsk
    cases hsp : splice_pipe_to_null chunk fuel (remaining (consumeAll st)) (seekoffArg st off) with
    | none =>
      simp only [hsp] at hsk
      exact Option.noConfusion hsk
    | some rr =>
      simp only [hsp, Option.some.injEq, Except.ok.injEq] at hsk
      obtain ⟨hrr, hle⟩ := splice_pipe_to_null_some chunk fuel _ _ _ hsp
      have hargcast : (seekoffArg st off : Int) = (off - (buffered st : Int)) % 2 ^ 64 :=
        toSizeT_cast _
      have hrem : remaining (consumeAll st) = st.flen - st.fpos := rfl
      have hfple : st.fpos ≤ st.flen := hfp hk
      rw [hrem] at hrr hle
      subst hsk
      refine ⟨rfl, rfl, rfl, rfl, ?_, fun _ => ?_⟩
      · simp only [consumeAll]
        omega
      · simp only [consumeAll]
        omega

/-! ## Claim C8 -/

/-- Claim C8: over every handle lifecycle, an owned (path-constructed) handle
closes its descriptor exactly once and only at destruction; when kind
classification fails after a successful open, the constructor closes the
descriptor exactly once, before the error propagates; and a borrowed handle
(constructed from an existing descriptor id) never closes anything — so no
descriptor is leaked or double-closed on any path. -/
theorem fd_close_exactly_once (attempts : List OpenAttempt) (fdv m fd : Nat)
    (m2 : Option Nat) (resOk resFail : Except Unit Fd × List Nat)
    (hopen : openRetry attempts = some (Except.ok fdv))
    (hOk : fdFromPath attempts (some m) = some resOk)
    (hFail : fdFromPath attempts none = some resFail) :
    resOk.2 = [] ∧ lifecycleCloses resOk = [fdv] ∧
    resFail.2 = [fdv] ∧ lifecycleCloses resFail = [fdv] ∧
    lifecycleCloses (fdFromInt fd m2) = [] := by
  unfold fdFromPath at hOk hFail
  rw [hopen] at hOk hFail
  simp only [Option.some.injEq] at hOk hFail
  subst hOk
  subst hFail
  refine ⟨rfl, ?_, rfl, ?_, ?_⟩
  · simp [lifecycleCloses, fdDtor]
  · simp [lifecycleCloses]
  · cases m2 <;> simp [fdFromInt, lifecycleCloses, fdDtor]

/-- Witness for C8: the environment retries one interruption then opens
descriptor 7; classification succeeds with a regular-file mode (or fails), and
a handle borrowed from descriptor 5 is also exercised. -/
theorem fd_close_exactly_once_inst :
    (openRetry [OpenAttempt.eintr, OpenAttempt.ok 7] = some (Except.ok 7) ∧
      fdFromPath [OpenAttempt.eintr, OpenAttempt.ok 7] (some 0o100644) =
        some (Except.ok ⟨7, FdType.reg, true⟩, []) ∧
      fdFromPath [OpenAttempt.eintr, OpenAttempt.ok 7] none =
        some (Except.error (), [7])) ∧
    (((Except.ok ⟨7, FdType.reg, true⟩, []) : Except Unit Fd × List Nat).2 = [] ∧
      lifecycleCloses (Except.ok ⟨7, FdType.reg, true⟩, []) = [7] ∧
      (((Except.error (), [7]) : Except Unit Fd × List Nat)).2 = [7] ∧
      lifecycleCloses (Except.error (), [7]) = [7] ∧
      lifecycleCloses (fdFromInt 5 (some 0o140000)) = []) :=
  ⟨⟨rfl, by decide, by decide⟩,
    fd_close_exactly_once [OpenAttempt.eintr, OpenAttempt.ok 7] 7 0o100644 5
      (some 0o140000) (Except.ok ⟨7, FdType.reg, true⟩, [])
      (Except.error (), [7]) rfl (by decide) (by decide)⟩

/-! ## Claim C9 -/

/-- Claim C9: classification tests `st_mode` with a bitwise AND against the
regular-file and fifo bits instead of comparing the file-type field for
equality, so every mode containing the `S_IFREG` bit — including a socket
(`S_IFSOCK = 0o140000` contains the `0o100000` bit) — is classified Regular,
and `skip` on such a descriptor uses the `lseek` strategy rather than the
two-hop transfer path. -/
theorem classify_bitmask_reg_lseek (mode : Nat) (h : mode &&& S_IFREG ≠ 0)
    (chunk fuel : Nat) (st : StreamSt) (n : Nat) (hk : st.kind = FdType.reg) :
    classify mode = FdType.reg ∧ classify S_IFSOCK = FdType.reg ∧
    skip chunk fuel st n = some (lseek st (toOffT n)) := by
  refine ⟨?_, by decide, skip_reg_eq chunk fuel st n hk⟩
  unfold classify
  rw [if_pos h]

/-- Witness for C9 at the socket mode and a concrete Regular stream state. -/
theorem classify_bitmask_reg_lseek_inst :
    (S_IFSOCK &&& S_IFREG ≠ 0 ∧
      (⟨FdType.reg, 0, 100, 0, 0, 0, 8192⟩ : StreamSt).kind = FdType.reg) ∧
    (classify S_IFSOCK = FdType.reg ∧ classify S_IFSOCK = FdType.reg ∧
      skip 4096 1 ⟨FdType.reg, 0, 100, 0, 0, 0, 8192⟩ 7 =
        some (lseek ⟨FdType.reg, 0, 100, 0, 0, 0, 8192⟩ (toOffT 7))) :=
  ⟨⟨by decide, rfl⟩,
    classify_bitmask_reg_lseek S_IFSOCK (by decide) 4096 1
      ⟨FdType.reg, 0, 100, 0, 0, 0, 8192⟩ 7 rfl⟩

/-! ## Claim C10 -/

/-- Claim C10: a successful optimization-path seek always leaves the window
fully consumed (`gptr = egptr`, i.e. the whole buffered window was given up
regardless of the requested offset), and the count handed to the `skip`
dispatcher is `(off - buffered)` reduced mod `2 ^ 64`; in particular when the
requested offset is smaller than the buffered unread count the dispatcher
receives the wrapped value `2 ^ 64 - (buffered - off)`, not zero. -/
theorem seekoff_consumes_window_mod_arg (chunk fuel : Nat) (st st' : StreamSt)
    (off r : Int)
    (h : seekoff chunk fuel st off SeekDir.cur modeIn = SeekRes.ok r st')
    (h0 : 0 ≤ off) (h1 : off < (buffered st : Int))
    (h2 : (buffered st : Int) < 2 ^ 64) :
    st'.gpos = st'.epos ∧
    (seekoffArg st off : Int) = (off - (buffered st : Int)) % 2 ^ 64 ∧
    (seekoffArg st off : Int) = 2 ^ 64 - ((buffered st : Int) - off) ∧
    seekoffArg st off ≠ 0 := by
  obtain ⟨hsk, hr⟩ := seekoff_ok_elim chunk fuel st st' off r h
  obtain ⟨-, -, -, hg, hepos, -⟩ :=
    skip_ok_frame chunk fuel (consumeAll st) st' (seekoffArg st off) hsk
  have hc : (seekoffArg st off : Int) = (off - (buffered st : Int)) % 2 ^ 64 :=
    toSizeT_cast _
  refine ⟨?_, hc, ?_, ?_⟩
  · rw [hg, hepos]
    rfl
  · omega
  · omega

/-- Witness for C10: a Regular stream with 5 buffered unread bytes asked to
seek forward 3: the whole window is consumed and `skip` receives
`2 ^ 64 - 2`. -/
theorem seekoff_consumes_window_mod_arg_inst :
    (seekoff 16 1 ⟨FdType.reg, 10, 100, 0, 0, 5, 8⟩ 3 SeekDir.cur modeIn =
        SeekRes.ok 5 ⟨FdType.reg, 8, 100, 0, 5, 5, 8⟩ ∧
      (0 : Int) ≤ 3 ∧
      (3 : Int) < (buffered ⟨FdType.reg, 10, 100, 0, 0, 5, 8⟩ : Int) ∧
      (buffered ⟨FdType.reg, 10, 100, 0, 0, 5, 8⟩ : Int) < 2 ^ 64) ∧
    ((⟨FdType.reg, 8, 100, 0, 5, 5, 8⟩ : StreamSt).gpos =
        (⟨FdType.reg, 8, 100, 0, 5, 5, 8⟩ : StreamSt).epos ∧
      (seekoffArg ⟨FdType.reg, 10, 100, 0, 0, 5, 8⟩ 3 : Int) =
        ((3 : Int) - (buffered ⟨FdType.reg, 10, 100, 0, 0, 5, 8⟩ : Int)) % 2 ^ 64 ∧
      (seekoffArg ⟨FdType.reg, 10, 100, 0, 0, 5, 8⟩ 3 : Int) =
        2 ^ 64 - ((buffered ⟨FdType.reg, 10, 100, 0, 0, 5, 8⟩ : Int) - 3) ∧
      seekoffArg ⟨FdType.reg, 10, 100, 0, 0, 5, 8⟩ 3 ≠ 0) :=
  ⟨⟨by decide, by decide, by decide, by decide⟩,
    seekoff_consumes_window_mod_arg 16 1 ⟨FdType.reg, 10, 100, 0, 0, 5, 8⟩
      ⟨FdType.reg, 8, 100, 0, 5, 5, 8⟩ 3 5 (by decide) (by decide) (by decide)
      (by decide)⟩

/-! ## Claim C1 -/

/-- Claim C1 (code bug): skip on an Other descriptor is not all-or-nothing.
The `break` after the first successful hop pair in `splice_to_null` ends the
loop early: with 1000 bytes available, a 64-byte kernel transfer granularity
and a request of 100 bytes, the call returns success having discarded only 64
bytes (the source still holds 936), with no error reported. -/
theorem skip_other_partial_success_bug :
    splice_to_null 64 1000 100 = Except.ok 936 ∧
    skip 64 1 ⟨FdType.other, 0, 1000, 0, 0, 0, 8192⟩ 100 =
      some (Except.ok ⟨FdType.other, 64, 1000, 0, 0, 0, 8192⟩) ∧
    1000 - 936 = 64 ∧ 64 < 100 :=
  ⟨by decide, by decide, by decide, by decide⟩

/-! ## Claim C2 -/

/-- A fifo holding exactly 50 bytes before end-of-input, fresh stream. -/
def stFifo50 : StreamSt := ⟨FdType.fifo, 0, 50, 0, 0, 0, 8192⟩

/-- An Other descriptor holding exactly 50 bytes, fresh stream. -/
def stOther50 : StreamSt := ⟨FdType.other, 0, 50, 0, 0, 0, 8192⟩

/-- `stFifo50` after its 50 bytes have been drained. -/
def stFifo50x : StreamSt := ⟨FdType.fifo, 50, 50, 0, 0, 0, 8192⟩

/-- `stOther50` after its 50 bytes have been drained. -/
def stOther50x : StreamSt := ⟨FdType.other, 50, 50, 0, 0, 0, 8192⟩

/-- Claim C2 (code bug): with exactly 50 bytes before end-of-input, a skip of
51 is supposed to raise the premature-end error on both Fifo and Other.
Instead: on the Fifo path the zero-byte splice return is never checked, so the
loop spins forever (for every fuel the loop has not returned); on the Other
path the early `break` returns success after discarding just the 50 available
bytes.  Skipping exactly the 50 remaining bytes does succeed on both kinds and
leaves the stream at end-of-input (the next `underflow` reports eof). -/
theorem skip_fifo_other_premature_end_bug :
    (∀ fuel, skip 4096 fuel stFifo50 51 = none) ∧
    skip 4096 1 stOther50 51 = some (Except.ok stOther50x) ∧
    skip 4096 2 stFifo50 50 = some (Except.ok stFifo50x) ∧
    skip 4096 1 stOther50 50 = some (Except.ok stOther50x) ∧
    (underflow stFifo50x).2 = false ∧ (underflow stOther50x).2 = false := by
  refine ⟨?_, by decide, by decide, by decide, by decide, by decide⟩
  intro fuel
  rw [skip_fifo_eq 4096 fuel stFifo50 51 rfl]
  have h : splice_pipe_to_null 4096 fuel (remaining stFifo50) 51 = none := by
    show splice_pipe_to_null 4096 fuel 50 51 = none
    cases fuel with
    | zero => rfl
    | succ f =>
      have hstep : splice_pipe_to_null 4096 (f + 1) 50 51 =
          splice_pipe_to_null 4096 f 0 1 := by
        simp [splice_pipe_to_null]
      rw [hstep]
      exact splice_pipe_to_null_stuck 4096 f 0
  rw [h]

/-! ## Claim C3 -/

/-- A fresh stream over a 10000-byte regular file. -/
def stReg10000 : StreamSt := ⟨FdType.reg, 0, 10000, 0, 0, 0, 8192⟩

/-- `stReg10000` after `seekoff 4096` on the optimization path. -/
def stReg10000x : StreamSt := ⟨FdType.reg, 4096, 10000, 0, 0, 0, 8192⟩

/-- Claim C3 (code bug): `fdbuf::seekoff` returns `gptr() - eback()` — the
read cursor's offset inside the buffer — not the stream's new absolute
position.  On a fresh 10000-byte Regular stream, `skip(4096)` does reposition
the stream correctly (the following 100-byte read returns exactly the bytes at
offsets 4096..4195 and leaves the logical position at 4196), but the seek
itself reports position 0 (the buffer was empty) instead of 4096. -/
theorem seekoff_reports_buffer_offset_bug (content : Nat → Nat) :
    seekoff 65536 1 stReg10000 4096 SeekDir.cur modeIn =
      SeekRes.ok 0 stReg10000x ∧
    streamPos stReg10000x = 4096 ∧ (0 : Int) ≠ 4096 ∧
    (xsgetn content stReg10000x 100).2 = (List.range' 4096 100).map content ∧
    (xsgetn content stReg10000x 100).1 =
      ⟨FdType.reg, 10000, 10000, 4096, 100, 5904, 8192⟩ ∧
    streamPos ⟨FdType.reg, 10000, 10000, 4096, 100, 5904, 8192⟩ = 4196 := by
  refine ⟨by decide, by decide, by decide, ?_, ?_, by decide⟩
  · simp [xsgetn, fill, stReg10000x]
  · simp [xsgetn, fill, stReg10000x]

/-! ## Claim C5 -/

/-- An `fdbuf` owning internal buffer 0 with 5 unread buffered bytes. -/
def memC5 : FdbufMem := ⟨0, 8192, true, 0, 0, 5, []⟩

/-- Claim C5 (code bug): `setbuf` does free the internally owned buffer
exactly once (ownership is dropped so the destructor never frees it again)
and installs the external buffer with the requested capacity — but it never
resets the read window.  With 5 unread buffered bytes, after installing
external buffer 1 the window still spans `[0, 5)` of internal buffer 0, which
is already freed, so the next read drains the freed buffer instead of the new
one. -/
theorem setbuf_window_not_reset_bug :
    setbuf memC5 1 4096 = ⟨1, 4096, false, 0, 0, 5, [0]⟩ ∧
    fdbufDtor (setbuf memC5 1 4096) = [0] ∧
    (fdbufDtor (setbuf memC5 1 4096)).count 0 = 1 ∧
    (setbuf memC5 1 4096).gpos ≠ (setbuf memC5 1 4096).epos ∧
    nextReadBuf (setbuf memC5 1 4096) = 0 ∧
    0 ∈ (setbuf memC5 1 4096).freed ∧
    (setbuf memC5 1 4096).curBuf = 1 ∧
    (setbuf memC5 1 4096).capacity = 4096 :=
  ⟨by decide, by decide, by decide, by decide, by decide, by decide, by decide,
    by decide⟩

/-! ## Claim C4 -/

/-- A Regular stream at descriptor offset 10 with an empty window. -/
def stBack : StreamSt := ⟨FdType.reg, 10, 100, 0, 0, 0, 8192⟩

/-- Counterexample for C4: a backward relative input seek (offset `-1`) does
not fall back to the default seek of the host stream abstraction — the guard
checks only the openmode and the seek direction, never the sign of the
offset, so the seek takes the optimization path, hands `skip` the wrapped
count `2 ^ 64 - 1` (which `lseek` converts back to `-1`) and reports
position 0. -/
theorem seekoff_backward_takes_optimization :
    seekoff 4096 1 stBack (-1) SeekDir.cur modeIn =
      SeekRes.ok 0 ⟨FdType.reg, 9, 100, 0, 0, 0, 8192⟩ ∧
    seekoff 4096 1 stBack (-1) SeekDir.cur modeIn ≠ SeekRes.fallback ∧
    seekoffArg stBack (-1) = 2 ^ 64 - 1 :=
  ⟨by decide, by decide, by decide⟩

/-- Amended C4: the optimization path is taken exactly for relative (`cur`)
seeks whose openmode is not exactly the output mode — including backward
relative seeks and combined `in|out` seeks; absolute (`beg`/`end`) seeks and
pure output-mode seeks fall back to the host default.  On the optimization
path the whole buffered window is consumed and the remainder
`off - buffered`, converted to an unsigned count, is delegated to the `skip`
dispatcher. -/
theorem seekoff_path_characterization (chunk fuel : Nat) (st : StreamSt)
    (off : Int) (way : SeekDir) (which : OpenMode) :
    (seekoff chunk fuel st off way which = SeekRes.fallback ↔
      (which = modeOut ∨ way ≠ SeekDir.cur)) ∧
    (way = SeekDir.cur → which ≠ modeOut →
      seekoff chunk fuel st off way which =
        match skip chunk fuel (consumeAll st) (seekoffArg st off) with
        | none => SeekRes.hang
        | some (Except.error e) => SeekRes.error e
        | some (Except.ok st') => SeekRes.ok (st.epos : Int) st') := by
  by_cases hg : which = modeOut ∨ way ≠ SeekDir.cur
  · refine ⟨⟨fun _ => hg, fun _ => by rw [seekoff, if_pos hg]⟩, ?_⟩
    intro hway hwhich
    rcases hg with hgo | hgw
    · exact absurd hgo hwhich
    · exact absurd hway hgw
  · refine ⟨⟨?_, fun h => absurd h hg⟩, fun _ _ => by rw [seekoff, if_neg hg]⟩
    intro h
    rw [seekoff, if_neg hg] at h
    cases hsk : skip chunk fuel (consumeAll st) (seekoffArg st off) with
    | none =>
      rw [hsk] at h
      exact SeekRes.noConfusion h
    | some res =>
      cases res with
      | error e =>
        rw [hsk] at h
        exact SeekRes.noConfusion h
      | ok s2 =>
        rw [hsk] at h
        exact SeekRes.noConfusion h

/-- Witness for the amended C4 at a concrete relative input seek: both the
exactness of the fallback condition and the optimization-path shape,
instantiated and with the inner hypotheses discharged. -/
theorem seekoff_path_characterization_inst :
    (seekoff 4096 1 stBack 5 SeekDir.cur modeIn = SeekRes.fallback ↔
      (modeIn = modeOut ∨ SeekDir.cur ≠ SeekDir.cur)) ∧
    (SeekDir.cur = SeekDir.cur → modeIn ≠ modeOut →
      seekoff 4096 1 stBack 5 SeekDir.cur modeIn =
        match skip 4096 1 (consumeAll stBack) (seekoffArg stBack 5) with
        | none => SeekRes.hang
        | some (Except.error e) => SeekRes.error e
        | some (Except.ok st') => SeekRes.ok (stBack.epos : Int) st') :=
  seekoff_path_characterization 4096 1 stBack 5 SeekDir.cur modeIn

/-! ## Claim C6 -/

/-- A fresh stream over an Other descriptor with 1000 bytes available. -/
def stAdd : StreamSt := ⟨FdType.other, 0, 1000, 0, 0, 0, 8192⟩

/-- `stAdd` after one 64-byte chunk has been spliced away. -/
def stAddA : StreamSt := ⟨FdType.other, 64, 1000, 0, 0, 0, 8192⟩

/-- `stAdd` after two 64-byte chunks have been spliced away. -/
def stAddB : StreamSt := ⟨FdType.other, 128, 1000, 0, 0, 0, 8192⟩

/-- Counterexample for C6: on an Other descriptor whose kernel transfers move
at most 64 bytes per splice, `skip(100)` then `skip(100)` and the single
`skip(200)` all return success (the early-`break` bug discards only one hop's
64 bytes per call), yet they end at different positions — 128 versus 64 — even
though `a + b = 200` does not exceed the 1000 bytes remaining. -/
theorem skip_additivity_fails_on_other :
    seekoff 64 1 stAdd 100 SeekDir.cur modeIn = SeekRes.ok 0 stAddA ∧
    seekoff 64 1 stAddA 100 SeekDir.cur modeIn = SeekRes.ok 0 stAddB ∧
    seekoff 64 1 stAdd 200 SeekDir.cur modeIn = SeekRes.ok 0 stAddA ∧
    streamPos stAddB = 128 ∧ streamPos stAddA = 64 ∧
    streamPos stAddB ≠ streamPos stAddA :=
  ⟨by decide, by decide, by decide, by decide, by decide, by decide⟩

/-- Amended C6: on Regular and Fifo descriptors (with sizes below `2 ^ 61`),
whenever `skip a` then `skip b` and the single `skip (a + b)` all succeed,
they end at the same final position.  (On Other descriptors the early-`break`
bug refutes even this; see the counterexample.) -/
theorem skip_additivity_reg_fifo (chunk f1 f2 f3 : Nat)
    (st st1 st2 st3 : StreamSt) (a b : Nat) (r1 r2 r3 : Int)
    (hk : st.kind = FdType.reg ∨ st.kind = FdType.fifo)
    (ha : a ≤ 2 ^ 61) (hb : b ≤ 2 ^ 61)
    (he : st.epos ≤ 2 ^ 61) (hf : st.flen ≤ 2 ^ 61)
    (hfp : st.kind = FdType.fifo → st.fpos ≤ st.flen)
    (h1 : seekoff chunk f1 st (a : Int) SeekDir.cur modeIn = SeekRes.ok r1 st1)
    (h2 : seekoff chunk f2 st1 (b : Int) SeekDir.cur modeIn = SeekRes.ok r2 st2)
    (h3 : seekoff chunk f3 st ((a : Int) + (b : Int)) SeekDir.cur modeIn =
      SeekRes.ok r3 st3) :
    streamPos st2 = streamPos st3 := by
  obtain ⟨k1, fl1, e1, g1, p1, q1⟩ :=
    seek_ok_step chunk f1 st st1 (a : Int) r1 hk (by omega) (by omega) he hf hfp h1
  have hk1 : st1.kind = FdType.reg ∨ st1.kind = FdType.fifo := by
    rw [k1]
    exact hk
  have hfp1 : st1.kind = FdType.fifo → st1.fpos ≤ st1.flen := by
    intro hko
    exact q1 (k1 ▸ hko)
  obtain ⟨k2, fl2, e2, g2, p2, q2⟩ :=
    seek_ok_step chunk f2 st1 st2 (b : Int) r2 hk1 (by omega) (by omega)
      (e1 ▸ he) (fl1 ▸ hf) hfp1 h2
  obtain ⟨k3, fl3, e3, g3, p3, q3⟩ :=
    seek_ok_step chunk f3 st st3 ((a : Int) + (b : Int)) r3 hk (by omega)
      (by omega) he hf hfp h3
  have hb1 : (buffered st1 : Int) = 0 := by
    unfold buffered
    omega
  have hb2 : (buffered st2 : Int) = 0 := by
    unfold buffered
    omega
  have hb3 : (buffered st3 : Int) = 0 := by
    unfold buffered
    omega
  unfold streamPos
  omega

/-- Witness for the amended C6 on a Fifo holding 100 bytes: `skip 10` then
`skip 20` ends where `skip 30` ends. -/
theorem skip_additivity_reg_fifo_inst :
    (seekoff 4096 1 ⟨FdType.fifo, 0, 100, 0, 0, 0, 8192⟩ (10 : Nat)
        SeekDir.cur modeIn =
        SeekRes.ok 0 ⟨FdType.fifo, 10, 100, 0, 0, 0, 8192⟩ ∧
      seekoff 4096 1 ⟨FdType.fifo, 10, 100, 0, 0, 0, 8192⟩ (20 : Nat)
        SeekDir.cur modeIn =
        SeekRes.ok 0 ⟨FdType.fifo, 30, 100, 0, 0, 0, 8192⟩ ∧
      seekoff 4096 1 ⟨FdType.fifo, 0, 100, 0, 0, 0, 8192⟩
        (((10 : Nat) : Int) + ((20 : Nat) : Int)) SeekDir.cur modeIn =
        SeekRes.ok 0 ⟨FdType.fifo, 30, 100, 0, 0, 0, 8192⟩) ∧
    streamPos ⟨FdType.fifo, 30, 100, 0, 0, 0, 8192⟩ =
      streamPos ⟨FdType.fifo, 30, 100, 0, 0, 0, 8192⟩ :=
  ⟨⟨by decide, by decide, by decide⟩,
    skip_additivity_reg_fifo 4096 1 1 1 ⟨FdType.fifo, 0, 100, 0, 0, 0, 8192⟩
      ⟨FdType.fifo, 10, 100, 0, 0, 0, 8192⟩ ⟨FdType.fifo, 30, 100, 0, 0, 0, 8192⟩
      ⟨FdType.fifo, 30, 100, 0, 0, 0, 8192⟩ 10 20 0 0 0 (Or.inr rfl)
      (by decide) (by decide) (by decide) (by decide) (fun _ => by decide)
      (by decide) (by decide) (by decide)⟩

/-! ## Claim C7 -/

/-- An Other-descriptor stream: 100 bytes buffered unread, 100 more in the
source. -/
def stZero : StreamSt := ⟨FdType.other, 100, 200, 0, 0, 100, 100⟩

/-- `stZero` after `skip(0)`: everything was drained. -/
def stZeroX : StreamSt := ⟨FdType.other, 200, 200, 0, 100, 100, 100⟩

/-- Counterexample for C7: `skip(0)` is not a no-op on an Other descriptor
with buffered unread bytes.  With 100 bytes buffered, the code consumes the
whole window and passes `(0 - 100) mod 2 ^ 64` to the dispatcher, whose first
splice hop drains all 100 bytes the source still held: the call "succeeds"
and the logical position jumps from 0 to 200. -/
theorem skip_zero_not_noop_on_other :
    seekoff 4096 1 stZero 0 SeekDir.cur modeIn = SeekRes.ok 100 stZeroX ∧
    streamPos stZero = 0 ∧ streamPos stZeroX = 200 ∧
    streamPos stZeroX ≠ streamPos stZero :=
  ⟨by decide, by decide, by decide, by decide⟩

/-- Amended C7: `skip(0)` leaves the logical position unchanged whenever no
bytes are buffered (on every kind, and then the whole state is unchanged),
and on every Regular stream satisfying the buffer invariant (the buffered
window is discarded and the descriptor is seeked back by the same amount);
with buffered bytes on Fifo/Other it is not a no-op (see the
counterexample). -/
theorem skip_zero_noop_cases (chunk fuel : Nat) (st : StreamSt)
    (hfl : st.fpos ≤ st.flen)
    (hc : (st.kind = FdType.reg ∧ st.gpos ≤ st.epos ∧ st.epos ≤ 2 ^ 61 ∧
            (st.gpos < st.epos → st.fpos = st.gstart + st.epos)) ∨
          st.gpos = st.epos) :
    ∃ st', seekoff chunk fuel st 0 SeekDir.cur modeIn =
        SeekRes.ok (st.epos : Int) st' ∧
      streamPos st' = streamPos st ∧ (st.gpos = st.epos → st' = st) := by
  have hguard : ¬(modeIn = modeOut ∨ SeekDir.cur ≠ SeekDir.cur) := by decide
  rcases hc with ⟨hreg, hge, he61, hinv⟩ | hgz
  · have hfB : 0 ≤ (st.fpos : Int) - (buffered st : Int) := by
      by_cases hlt : st.gpos < st.epos
      · have := hinv hlt
        unfold buffered
        omega
      · unfold buffered
        omega
    have harg : toOffT (seekoffArg st 0) = 0 - (buffered st : Int) := by
      apply toOffT_toSizeT
      · unfold buffered at *
        omega
      · unfold buffered at *
        omega
    have hcond : (0 : Int) ≤ ((consumeAll st).fpos : Int) +
        (0 - (buffered st : Int)) := by
      simp only [consumeAll]
      omega
    refine ⟨{ consumeAll st with
        fpos := (((consumeAll st).fpos : Int) + (0 - (buffered st : Int))).toNat },
      ?_, ?_, ?_⟩
    · rw [seekoff, if_neg hguard,
        skip_reg_eq chunk fuel (consumeAll st) (seekoffArg st 0) hreg,
        lseek, harg, if_pos hcond]
    · simp only [streamPos, buffered, consumeAll]
      unfold buffered at hfB
      omega
    · intro hgz
      have hB : buffered st = 0 := by
        unfold buffered
        omega
      apply StreamSt.ext_fields
      · rfl
      · simp only [consumeAll]
        omega
      · rfl
      · rfl
      · exact hgz.symm
      · rfl
      · rfl
  · have hB : buffered st = 0 := by
      unfold buffered
      omega
    have harg : seekoffArg st 0 = 0 := by
      unfold seekoffArg
      rw [hB]
      rfl
    have hcs : consumeAll st = st := by
      apply StreamSt.ext_fields
      · rfl
      · rfl
      · rfl
      · rfl
      · exact hgz.symm
      · rfl
      · rfl
    refine ⟨st, ?_, rfl, fun _ => rfl⟩
    rw [seekoff, if_neg hguard, harg, hcs]
    cases hk : st.kind
    · have ht0 : toOffT 0 = 0 := by decide
      rw [skip_reg_eq chunk fuel st 0 hk, lseek, ht0,
        if_pos (show (0 : Int) ≤ (st.fpos : Int) + 0 by omega)]
      have hfp : ((st.fpos : Int) + 0).toNat = st.fpos := by omega
      rw [hfp]
    · rw [skip_fifo_eq chunk fuel st 0 hk,
        splice_pipe_to_null_zero chunk fuel (remaining st)]
      have hred : st.flen - remaining st = st.fpos := by
        unfold remaining
        omega
      show SeekRes.ok (st.epos : Int) { st with fpos := st.flen - remaining st } =
        SeekRes.ok (st.epos : Int) st
      rw [hred]
    · rw [skip_other_eq chunk fuel st 0 hk,
        show splice_to_null chunk (remaining st) 0 = Except.ok (remaining st) from rfl]
      have hred : st.flen - remaining st = st.fpos := by
        unfold remaining
        omega
      show SeekRes.ok (st.epos : Int) { st with fpos := st.flen - remaining st } =
        SeekRes.ok (st.epos : Int) st
      rw [hred]

/-- Witness for the amended C7 on a Regular stream with 5 buffered unread
bytes: `skip(0)` reports the window end offset and leaves the logical
position at 3. -/
theorem skip_zero_noop_cases_inst :
    ((⟨FdType.reg, 8, 100, 0, 3, 8, 8⟩ : StreamSt).fpos ≤
        (⟨FdType.reg, 8, 100, 0, 3, 8, 8⟩ : StreamSt).flen ∧
      ((⟨FdType.reg, 8, 100, 0, 3, 8, 8⟩ : StreamSt).kind = FdType.reg ∧
        (3 : Nat) ≤ 8 ∧ (8 : Nat) ≤ 2 ^ 61 ∧
        ((3 : Nat) < 8 → (8 : Nat) = 0 + 8))) ∧
    (∃ st', seekoff 4096 1 ⟨FdType.reg, 8, 100, 0, 3, 8, 8⟩ 0 SeekDir.cur
          modeIn = SeekRes.ok ((⟨FdType.reg, 8, 100, 0, 3, 8, 8⟩ :
            StreamSt).epos : Int) st' ∧
        streamPos st' = streamPos ⟨FdType.reg, 8, 100, 0, 3, 8, 8⟩ ∧
        ((⟨FdType.reg, 8, 100, 0, 3, 8, 8⟩ : StreamSt).gpos =
            (⟨FdType.reg, 8, 100, 0, 3, 8, 8⟩ : StreamSt).epos →
          st' = ⟨FdType.reg, 8, 100, 0, 3, 8, 8⟩)) :=
  ⟨⟨by decide, rfl, by decide, by decide, fun _ => by decide⟩,
    skip_zero_noop_cases 4096 1 ⟨FdType.reg, 8, 100, 0, 3, 8, 8⟩ (by decide)
      (Or.inl ⟨rfl, by decide, by decide, fun _ => by decide⟩)⟩

end Fdstream
